import Mathlib

/-
Verification development for the `jsonschema` reflection library
(repository bmartynov/jsonschema).

The library walks a Go runtime value together with its static type and
produces a JSON-Schema tree (`Type` nodes) plus a definitions registry.
This file gives a shallow embedding of the walker:

  * `reflect.go`        — `Reflect`, `reflectType`, `reflectStruct`
  * `reflect_types.go`  — the per-kind handlers (`reflectTime`, `reflectIP`,
    `reflectURI`, `reflectPBEnum`, `reflectEnum`, `reflectOneOf`,
    `reflectAnyOf`, `reflectAllOf`, `reflectSlice`, `reflectMap`,
    `reflectInteger`, `reflectNumber`, `reflectBool`, `reflectString`,
    `reflectInterface`) and the uncalled helper `getSliceValue` from the
    sibling revision of that file
  * the tag file — `tags`, `applyValidation`, `applyInfo`

Go reflection is modelled by inductive types `GoType` (static types) and
`GoValue` (runtime values).  Since a Go value of pointer or container type
determines the zero value of its element type (`reflect.Zero`,
`reflect.New`), the corresponding `GoValue` constructors carry that zero
value as data.  Recursion is bounded by an explicit fuel parameter: the Go
code recurses without bound on cyclic type graphs (there is no guard), and
fuel exhaustion is reported separately from a Go panic.

Go `int` is modelled as `Int`; float payloads are carried opaquely (no
arithmetic is ever performed on them).  Go maps are modelled as association
lists whose assignment overwrites the entry for an existing key.
-/

namespace JsonschemaGo

/-! ## Field descriptor (the parsed tag set, from the tag file)

`parseTags` itself is string parsing of Go struct tags (the spec treats the
Field Descriptor Reader as an external collaborator); struct fields below
carry the parsed `tags` record directly. -/

/-- The normalized per-field metadata record, mirroring `type tags struct`
from the tag file (conditional-visibility strings included). -/
structure tags where
  name : String := ""
  title : String := ""
  required : Bool := false
  ignored : Bool := false
  minLength : Int := 0
  maxLength : Int := 0
  format : String := ""
  multipleOf : Int := 0
  minimum : Int := 0
  maximum : Int := 0
  exclusiveMaximum : Bool := false
  exclusiveMinimum : Bool := false
  minItems : Int := 0
  maxItems : Int := 0
  uniqueItems : Bool := false
  showIf : String := ""
  hideIf : String := ""
deriving DecidableEq

/-! ## Go types and values -/

/-- Structural kinds of Go reflection (`reflect.Kind`), restricted to the
ones the walker can meet. -/
inductive GoKind where
  | invalid | ptr | iface | struct' | slice | array | map'
  | int' | float | bool' | string' | chan | func' | complex
deriving DecidableEq

/-- Which of the five capability interfaces a Go type implements
(`protoEnum`, `implicitOneOf`, `implicitAnyOf`, `implicitAllOf`,
`enumType`); `t.Implements(...)` queries read these flags. -/
structure Caps where
  pbEnum : Bool := false
  oneOf : Bool := false
  anyOf : Bool := false
  allOf : Bool := false
  enum : Bool := false
deriving DecidableEq

/-- Go static types, as the walker observes them: the three well-known
struct types compared by identity (`typeTime`, `typeIP`, `typeURI`), the
designated byte-slice type `typeByteSlice` (identity comparison in
`reflectSlice`), the ordinary kinds, and a wrapper recording that a named
type implements capability interfaces. -/
inductive GoType where
  | tTime | tIP | tURI
  | tByteSlice
  | tInt | tFloat | tBool | tString
  | tStruct (name : String)
  | tSlice (elem : GoType)
  | tArray (n : Nat) (elem : GoType)
  | tMap (elem : GoType)
  | tPtr (elem : GoType)
  | tInterface
  | tChan | tFunc | tComplex
  | tCap (caps : Caps) (under : GoType)
deriving DecidableEq

/-- `t.Implements(typePBEnum)`. -/
def GoType.implementsPBEnum : GoType → Bool
  | .tCap c _ => c.pbEnum
  | _ => false

/-- `t.Implements(typeOneOf)`. -/
def GoType.implementsOneOf : GoType → Bool
  | .tCap c _ => c.oneOf
  | _ => false

/-- `t.Implements(typeAnyOf)`. -/
def GoType.implementsAnyOf : GoType → Bool
  | .tCap c _ => c.anyOf
  | _ => false

/-- `t.Implements(typeAllOf)`. -/
def GoType.implementsAllOf : GoType → Bool
  | .tCap c _ => c.allOf
  | _ => false

/-- `t.Implements(typeEnum)`. -/
def GoType.implementsEnum : GoType → Bool
  | .tCap c _ => c.enum
  | _ => false

/-- Whether the type's kind is `reflect.Array` (`v.Type().Kind() == reflect.Array`). -/
def GoType.isArray : GoType → Bool
  | .tArray _ _ => true
  | _ => false

/-- `t.Len()` for fixed-length array types. -/
def GoType.arrayLen : GoType → Nat
  | .tArray n _ => n
  | _ => 0

/-- `t.Elem()` — the element type of a container or pointer type
(`[]byte` has element type `byte`, an integer kind). -/
def GoType.elemType : GoType → GoType
  | .tSlice e => e
  | .tArray _ e => e
  | .tByteSlice => .tInt
  | .tMap e => e
  | .tPtr e => e
  | t => t

mutual
/-- Go runtime values as the walker observes them.

* `vPtr pointeeZero deref` — a pointer value; `pointeeZero` is the zero
  value of the pointee type (Go derives it from the static type via
  `reflect.Zero(t.Elem())`; it is carried on the value so the model stays
  structural), `deref` is the pointed-to value (`none` for a nil pointer).
* `vSlice ty elemZero elems` — a slice or array value of static type `ty`;
  `elemZero` is the zero value of the element type (`reflect.New(t.Elem())`
  allocates exactly this), `elems` are the actual elements.
* `vMap ty elemZero` — a map value (the walker never reads map entries,
  only the element type).
* `vCap enumVs oneOfVs anyOfVs allOfVs under` — a value of a type that
  implements capability interfaces; the lists are what the value's
  `Enum()` / `OneOf()` / `AnyOf()` / `AllOf()` methods return (each
  `[]interface{}` element is a typed value, hence a `GoType × GoValue`
  pair), and `under` is the value itself as seen by plain kind dispatch.
-/
inductive GoValue where
  | vInvalid
  | vInt (n : Int)
  | vFloat (payload : Int)
  | vBool (b : Bool)
  | vString (s : String)
  | vStruct (name : String) (fields : List GoField)
  | vSlice (ty : GoType) (elemZero : GoValue) (elems : List GoValue)
  | vMap (ty : GoType) (elemZero : GoValue)
  | vPtr (pointeeZero : GoValue) (deref : Option GoValue)
  | vIface (inner : Option GoValue)
  | vCap (enumVs : List (GoType × GoValue)) (oneOfVs : List (GoType × GoValue))
         (anyOfVs : List (GoType × GoValue)) (allOfVs : List (GoType × GoValue))
         (under : GoValue)
  | vChan | vFunc | vComplex

/-- One structural member of a struct value: the parsed tag record, the
`Anonymous` flag, whether the field is exported (`PkgPath == ""`), its
static type (`structField.Type`) and its value (`v.Field(i)`). -/
inductive GoField where
  | mk (tag : tags) (anonymous : Bool) (exported : Bool) (ty : GoType) (val : GoValue)
end

/-- Field projection: parsed tag record. -/
def GoField.tag : GoField → tags
  | .mk t _ _ _ _ => t

/-- Field projection: `Anonymous` flag. -/
def GoField.anonymous : GoField → Bool
  | .mk _ a _ _ _ => a

/-- Field projection: exported (`PkgPath == ""`). -/
def GoField.exported : GoField → Bool
  | .mk _ _ e _ _ => e

/-- Field projection: static type. -/
def GoField.ty : GoField → GoType
  | .mk _ _ _ t _ => t

/-- Field projection: runtime value. -/
def GoField.val : GoField → GoValue
  | .mk _ _ _ _ v => v

/-- `v.Kind()`. A capability wrapper reports the kind of the wrapped
value; a slice value reports `array` exactly when its static type is a
fixed-length array type. -/
def GoValue.kind : GoValue → GoKind
  | .vInvalid => .invalid
  | .vInt _ => .int'
  | .vFloat _ => .float
  | .vBool _ => .bool'
  | .vString _ => .string'
  | .vStruct _ _ => .struct'
  | .vSlice ty _ _ => if ty.isArray then .array else .slice
  | .vMap _ _ => .map'
  | .vPtr _ _ => .ptr
  | .vIface _ => .iface
  | .vCap _ _ _ _ u => u.kind
  | .vChan => .chan
  | .vFunc => .func'
  | .vComplex => .complex

/-- `v.Type().Name()` — the canonical name of a named composite value. -/
def GoValue.typeName : GoValue → String
  | .vStruct n _ => n
  | .vCap _ _ _ _ u => u.typeName
  | _ => ""

/-- `v.Interface().(enumType).Enum()`. -/
def GoValue.enumVariants : GoValue → List (GoType × GoValue)
  | .vCap e _ _ _ _ => e
  | _ => []

/-- `v.Interface().(implicitOneOf).OneOf()`. -/
def GoValue.oneOfVariants : GoValue → List (GoType × GoValue)
  | .vCap _ o _ _ _ => o
  | _ => []

/-- `v.Interface().(implicitAnyOf).AnyOf()`. -/
def GoValue.anyOfVariants : GoValue → List (GoType × GoValue)
  | .vCap _ _ a _ _ => a
  | _ => []

/-- `v.Interface().(implicitAllOf).AllOf()`. -/
def GoValue.allOfVariants : GoValue → List (GoType × GoValue)
  | .vCap _ _ _ a _ => a
  | _ => []

/-- Values on which `v.NumField()` is defined (struct values, possibly
behind a capability wrapper); on any other value `NumField` panics. -/
def GoValue.isStructish : GoValue → Bool
  | .vStruct _ _ => true
  | .vCap _ _ _ _ u => u.isStructish
  | _ => false

/-! ## Schema nodes

The `Type` struct itself lives in a schema file that is not among the
walker sources; its field set is modelled from the spec's Schema Node
description (§3) and from how the walker reads and writes it.  The scalar
attributes are bundled in `NodeAttrs` so that the recursive node type has a
single constructor. -/

/-- Scalar attributes of a Schema Node: `kind` (`typ`), `ref`, `version`,
`format`, `title`, `binaryEncoding`, `additionalProperties` (its JSON
bytes, as a string), numeric/string/array constraints, the `required`
name set, the `enum` variant list and the observed `default` value. -/
structure NodeAttrs where
  typ : String := ""
  ref : String := ""
  version : String := ""
  format : String := ""
  title : String := ""
  binaryEncoding : String := ""
  additionalProperties : String := ""
  minLength : Int := 0
  maxLength : Int := 0
  multipleOf : Int := 0
  minimum : Int := 0
  maximum : Int := 0
  exclusiveMinimum : Bool := false
  exclusiveMaximum : Bool := false
  minItems : Int := 0
  maxItems : Int := 0
  uniqueItems : Bool := false
  required : List String := []
  enum : List (GoType × GoValue) := []
  default : Option GoValue := none

/-- A Schema Node (the Go library's `*Type`).  Constructor argument order:
attributes, `properties`, `patternProperties`, `items`, `media`, `oneOf`,
`anyOf`, `allOf`, `definitions`. -/
inductive TypeNode where
  | mk (attrs : NodeAttrs)
       (properties : List (String × TypeNode))
       (patternProperties : List (String × TypeNode))
       (items : Option TypeNode)
       (media : Option TypeNode)
       (oneOf : List TypeNode)
       (anyOf : List TypeNode)
       (allOf : List TypeNode)
       (definitions : List (String × TypeNode))

/-- Node projection: scalar attributes. -/
def TypeNode.attrs : TypeNode → NodeAttrs
  | .mk a _ _ _ _ _ _ _ _ => a

/-- Node projection: `Properties`. -/
def TypeNode.properties : TypeNode → List (String × TypeNode)
  | .mk _ p _ _ _ _ _ _ _ => p

/-- Node projection: `PatternProperties`. -/
def TypeNode.patternProperties : TypeNode → List (String × TypeNode)
  | .mk _ _ pp _ _ _ _ _ _ => pp

/-- Node projection: `Items`. -/
def TypeNode.items : TypeNode → Option TypeNode
  | .mk _ _ _ i _ _ _ _ _ => i

/-- Node projection: `Media`. -/
def TypeNode.media : TypeNode → Option TypeNode
  | .mk _ _ _ _ m _ _ _ _ => m

/-- Node projection: `OneOf`. -/
def TypeNode.oneOf : TypeNode → List TypeNode
  | .mk _ _ _ _ _ o _ _ _ => o

/-- Node projection: `AnyOf`. -/
def TypeNode.anyOf : TypeNode → List TypeNode
  | .mk _ _ _ _ _ _ a _ _ => a

/-- Node projection: `AllOf`. -/
def TypeNode.allOf : TypeNode → List TypeNode
  | .mk _ _ _ _ _ _ _ a _ => a

/-- Node projection: `Definitions` (the per-node registry field the
embedded-field splice reads; the walker never writes it on a node). -/
def TypeNode.definitions : TypeNode → List (String × TypeNode)
  | .mk _ _ _ _ _ _ _ _ d => d

/-- Update the scalar attributes of a node in place. -/
def TypeNode.withAttrs (f : NodeAttrs → NodeAttrs) : TypeNode → TypeNode
  | .mk a p pp i m o an al d => .mk (f a) p pp i m o an al d

/-- Replace the `Properties` map of a node. -/
def TypeNode.withProperties (ps : List (String × TypeNode)) : TypeNode → TypeNode
  | .mk a _ pp i m o an al d => .mk a ps pp i m o an al d

/-- Replace the `PatternProperties` map of a node. -/
def TypeNode.withPatternProperties (ps : List (String × TypeNode)) : TypeNode → TypeNode
  | .mk a p _ i m o an al d => .mk a p ps i m o an al d

/-- Replace the `Items` child of a node. -/
def TypeNode.withItems (i : Option TypeNode) : TypeNode → TypeNode
  | .mk a p pp _ m o an al d => .mk a p pp i m o an al d

/-- Replace the `Media` child of a node. -/
def TypeNode.withMedia (m : Option TypeNode) : TypeNode → TypeNode
  | .mk a p pp i _ o an al d => .mk a p pp i m o an al d

/-- The node's `Type` attribute (its kind string). -/
def TypeNode.typ (n : TypeNode) : String := n.attrs.typ

/-- The node's `Required` name set. -/
def TypeNode.required (n : TypeNode) : List String := n.attrs.required

/-- A node with the given scalar attributes and no children — the model of
a Go literal `&Type{...}`. -/
def typeMk (a : NodeAttrs) : TypeNode := .mk a [] [] none none [] [] [] []

/-- Go map assignment `m[k] = v` on an association list: overwrite the
existing entry for the key, otherwise add one. -/
def setAssoc : List (String × TypeNode) → String → TypeNode → List (String × TypeNode)
  | [], k, v => [(k, v)]
  | (k', v') :: rest, k, v =>
      if k' == k then (k, v) :: rest else (k', v') :: setAssoc rest k v

/-- The Definitions Registry: canonical type name ↦ Schema Node. -/
abbrev Definitions := List (String × TypeNode)

/-- Insert a property under a name (Go map assignment on `Properties`). -/
def TypeNode.setProp (n : TypeNode) (k : String) (child : TypeNode) : TypeNode :=
  n.withProperties (setAssoc n.properties k child)

/-- The kind-string constants from `reflect.go`. -/
def tTypeObject : String := "object"

/-- Kind string: `string`. -/
def tTypeString : String := "string"

/-- Kind string: `integer`. -/
def tTypeInteger : String := "integer"

/-- Kind string: `number`. -/
def tTypeNumber : String := "number"

/-- Kind string: `boolean`. -/
def tTypeBoolean : String := "boolean"

/-- Kind string: `array`. -/
def tTypeArray : String := "array"

/-- Modelled from the spec: the schema-version marker set on the root node
(`root.Version = Version`); the constant is declared in the schema file
that is absent from the walker sources, and its exact value is immaterial
to every claim. -/
def Version : String := "http://json-schema.org/draft-04/schema#"

/-- Modelled from the spec: `newType` (declared in the absent schema file)
builds a fresh node of the given kind with an initialized, empty
`Properties` map — `reflectStruct` assigns into `currentType.Properties`
immediately after calling it. -/
def newType (k : String) : TypeNode := typeMk { typ := k }

/-- `newReference` builds a `$ref` node; its body is recorded in a comment
in the repository's schema test: `&Type{Ref: "#/definitions/" + typ}`. -/
def newReference (typ : String) : TypeNode :=
  typeMk { ref := "#/definitions/" ++ typ }

/-! ## Tag application (tag file, `applyValidation` / `applyInfo`) -/

/-- `applyValidation(dst, t)`: a switch on the node's own kind string;
string nodes take the string bounds (`format` only when non-empty), number
nodes take the numeric bounds, array nodes take the array bounds, and any
other kind — `integer` included — is left untouched. -/
def applyValidation (dst : TypeNode) (t : tags) : TypeNode :=
  if dst.typ = tTypeString then
    dst.withAttrs fun a =>
      { a with minLength := t.minLength, maxLength := t.maxLength,
               format := if t.format ≠ "" then t.format else a.format }
  else if dst.typ = tTypeNumber then
    dst.withAttrs fun a =>
      { a with multipleOf := t.multipleOf, minimum := t.minimum,
               maximum := t.maximum, exclusiveMinimum := t.exclusiveMinimum,
               exclusiveMaximum := t.exclusiveMaximum }
  else if dst.typ = tTypeArray then
    dst.withAttrs fun a =>
      { a with minItems := t.minItems, maxItems := t.maxItems,
               uniqueItems := t.uniqueItems }
  else dst

/-- `applyInfo(dst, t)`: `dst.Title = t.title`. -/
def applyInfo (dst : TypeNode) (t : tags) : TypeNode :=
  dst.withAttrs fun a => { a with title := t.title }

/-! ## The reflection walker -/

/-- How a walk can fail: a Go runtime panic (with its message), or
exhaustion of the explicit fuel bound (the Go code has no recursion guard,
so a cyclic type graph recurses forever; fuel exhaustion stands for a walk
that has not finished within the given bound). -/
inductive WalkErr where
  | crash (msg : String)
  | outOfFuel
deriving DecidableEq

/-- Result of a walk: the produced node together with the definitions
registry after the walk's side effects (the Go code mutates the shared
`definitions` map in place; the model threads it). -/
abbrev WalkRes := Except WalkErr (TypeNode × Definitions)

/-- Lines 38–44 of `reflect.go`: if the value is a pointer, dereference
it; a nil pointer is replaced by the zero value of the pointee type
(`reflect.Zero(t.Elem())`, carried on the pointer value in this model). -/
def derefPtr : GoValue → GoValue
  | .vPtr _ (some u) => u
  | .vPtr pz none => pz
  | v => v

/-- Lines 46–48 of `reflect.go`: if the value is an interface, take
`reflect.Indirect(v.Elem())` — the dynamic value, dereferencing one
pointer, with a nil interface or nil pointer yielding the invalid value. -/
def unwrapIface : GoValue → GoValue
  | .vIface none => .vInvalid
  | .vIface (some u) =>
      match u with
      | .vPtr _ (some w) => w
      | .vPtr _ none => .vInvalid
      | x => x
  | v => v

/-- The two kind-guarded unwrapping steps at the top of `reflectType`. -/
def unwrapPtrIface (v : GoValue) : GoValue :=
  let v1 := if v.kind = .ptr then derefPtr v else v
  if v1.kind = .iface then unwrapIface v1 else v1

/-- `reflectTime`: `time.Time` maps to a string node with format
`date-time`. -/
def reflectTime (definitions : Definitions) (_v : GoValue) : WalkRes :=
  .ok (typeMk { typ := tTypeString, format := "date-time" }, definitions)

/-- `reflectIP`: `net.IP` maps to a string node with format `ipv4`. -/
def reflectIP (definitions : Definitions) (_v : GoValue) : WalkRes :=
  .ok (typeMk { typ := tTypeString, format := "ipv4" }, definitions)

/-- `reflectURI`: `url.URL` maps to a string node with format `uri`. -/
def reflectURI (definitions : Definitions) (_v : GoValue) : WalkRes :=
  .ok (typeMk { typ := tTypeString, format := "uri" }, definitions)

/-- `reflectPBEnum`: a protobuf-generated enumerable maps to a node whose
`oneOf` is exactly `[{Type: string}, {Type: integer}]`. -/
def reflectPBEnum (definitions : Definitions) (_v : GoValue) : WalkRes :=
  .ok (TypeNode.mk {} [] []
        none none
        [typeMk { typ := tTypeString }, typeMk { typ := tTypeInteger }]
        [] [] [],
      definitions)

/-- `reflectInteger`: an integer node carrying the reflected value as
`Default`. -/
def reflectInteger (definitions : Definitions) (v : GoValue) : WalkRes :=
  .ok (typeMk { typ := tTypeInteger, default := some v }, definitions)

/-- `reflectNumber`: a number node carrying the reflected value as
`Default`. -/
def reflectNumber (definitions : Definitions) (v : GoValue) : WalkRes :=
  .ok (typeMk { typ := tTypeNumber, default := some v }, definitions)

/-- `reflectBool`: a boolean node carrying the reflected value as
`Default`. -/
def reflectBool (definitions : Definitions) (v : GoValue) : WalkRes :=
  .ok (typeMk { typ := tTypeBoolean, default := some v }, definitions)

/-- `reflectString`: a string node carrying the reflected value as
`Default`. -/
def reflectString (definitions : Definitions) (v : GoValue) : WalkRes :=
  .ok (typeMk { typ := tTypeString, default := some v }, definitions)

/-- `reflectInterface`: the fallback node — an object with
`AdditionalProperties` set to the JSON bytes `true`. -/
def reflectInterface (definitions : Definitions) (_t : GoType) (_v : GoValue) : WalkRes :=
  .ok (typeMk { typ := tTypeObject, additionalProperties := "true" }, definitions)

mutual

/-- `reflectType` (`reflect.go` lines 37–109): pointer/interface
unwrapping, the identity switch on the three well-known types, the
capability dispatch in source order (`protoEnum`, `implicitOneOf`,
`implicitAnyOf`, `implicitAllOf`, `enumType` — first match wins), then the
kind switch.  A non-root struct is walked, stored in the registry under
its type name (overwriting any existing entry — the function performs no
presence check), and returned as a `$ref` node; a kind with no case falls
through to `reflectInterface`. -/
def reflectType (fuel : Nat) (definitions : Definitions) (t : GoType)
    (v0 : GoValue) (root : Bool) : WalkRes :=
  match fuel with
  | 0 => .error .outOfFuel
  | fuel' + 1 =>
    let v := unwrapPtrIface v0
    if t = .tTime then reflectTime definitions v
    else if t = .tIP then reflectIP definitions v
    else if t = .tURI then reflectURI definitions v
    else if t.implementsPBEnum then reflectPBEnum definitions v
    else if t.implementsOneOf then reflectOneOf fuel' definitions v
    else if t.implementsAnyOf then reflectAnyOf fuel' definitions v
    else if t.implementsAllOf then reflectAllOf fuel' definitions v
    else if t.implementsEnum then reflectEnum fuel' definitions v
    else
      match v.kind with
      | .struct' =>
        match reflectStruct fuel' definitions v with
        | .error e => .error e
        | .ok (currentType, defs1) =>
          if root then .ok (currentType, defs1)
          else .ok (newReference v.typeName, setAssoc defs1 v.typeName currentType)
      | .slice => reflectSlice fuel' definitions v
      | .map' => reflectMap fuel' definitions v
      | .int' => reflectInteger definitions v
      | .float => reflectNumber definitions v
      | .bool' => reflectBool definitions v
      | .string' => reflectString definitions v
      | _ => reflectInterface definitions t v

/-- `reflectStruct` (`reflect.go` lines 111–152): create an object node
via `newType` and fold the struct's fields into it.  `v.NumField()` panics
when the value is not of struct kind. -/
def reflectStruct (fuel : Nat) (definitions : Definitions) (v : GoValue) : WalkRes :=
  match fuel with
  | 0 => .error .outOfFuel
  | fuel' + 1 =>
    match v with
    | .vStruct _ fields => reflectFields fuel' definitions (newType tTypeObject) fields
    | .vCap _ _ _ _ u => reflectStruct fuel' definitions u
    | _ => .error (.crash "reflect: NumField of non-struct type")

/-- The field loop of `reflectStruct`: skip unexported fields; for an
anonymous (embedded) field, walk it with `reflectStruct` and splice its
`Definitions` and `Properties` into the current node — then fall through
(the source has no `continue` there) to the tag handling: skip unnamed or
ignored descriptors, otherwise walk the field with `reflectType`, apply
`applyInfo` and `applyValidation`, and insert the child under the tag
name.  The `Required` set is never written. -/
def reflectFields (fuel : Nat) (definitions : Definitions) (currentType : TypeNode)
    (fields : List GoField) : WalkRes :=
  match fuel with
  | 0 => .error .outOfFuel
  | fuel' + 1 =>
    match fields with
    | [] => .ok (currentType, definitions)
    | f :: rest =>
      if !f.exported then reflectFields fuel' definitions currentType rest
      else
        match
          (if f.anonymous then
            match reflectStruct fuel' definitions f.val with
            | .error e => .error e
            | .ok (typ, d1) =>
              .ok (typ.properties.foldl (fun c p => c.setProp p.1 p.2) currentType,
                   typ.definitions.foldl (fun d p => setAssoc d p.1 p.2) d1)
          else .ok (currentType, definitions) : WalkRes) with
        | .error e => .error e
        | .ok (cur1, defs1) =>
          let tgs := f.tag
          if tgs.name == "" || tgs.ignored then reflectFields fuel' defs1 cur1 rest
          else
            match reflectType fuel' defs1 f.ty f.val false with
            | .error e => .error e
            | .ok (fieldType, defs2) =>
              let fieldType := applyInfo fieldType tgs
              let fieldType := applyValidation fieldType tgs
              reflectFields fuel' defs2 (cur1.setProp tgs.name fieldType) rest

/-- `reflectEnum` (`reflect_types.go` lines 73–86): ask the value for its
variants, read `variants[0]` unconditionally (an empty list panics with an
index-out-of-range), walk that first variant to infer the kind string, and
return a node with the variant list as `Enum` and the reflected value as
`Default`. -/
def reflectEnum (fuel : Nat) (definition : Definitions) (v : GoValue) : WalkRes :=
  match fuel with
  | 0 => .error .outOfFuel
  | fuel' + 1 =>
    match v.enumVariants with
    | [] => .error (.crash "index out of range")
    | (variantTypeOf, variantValueOf) :: _ =>
      match reflectType fuel' definition variantTypeOf variantValueOf false with
      | .error e => .error e
      | .ok (vType, d1) =>
        .ok (typeMk { typ := vType.typ, enum := v.enumVariants, default := some v }, d1)

/-- `reflectOneOf` (`reflect_types.go` lines 88–103): walk every variant
and aggregate the children under `OneOf`, with the reflected value as
`Default`; the node has no kind of its own. -/
def reflectOneOf (fuel : Nat) (definition : Definitions) (v : GoValue) : WalkRes :=
  match fuel with
  | 0 => .error .outOfFuel
  | fuel' + 1 =>
    match reflectVariants fuel' definition v.oneOfVariants with
    | .error e => .error e
    | .ok (oneOf, d1) =>
      .ok (TypeNode.mk { default := some v } [] [] none none oneOf [] [] [], d1)

/-- `reflectAnyOf` (`reflect_types.go` lines 105–120): as `reflectOneOf`,
aggregating under `AnyOf`. -/
def reflectAnyOf (fuel : Nat) (definition : Definitions) (v : GoValue) : WalkRes :=
  match fuel with
  | 0 => .error .outOfFuel
  | fuel' + 1 =>
    match reflectVariants fuel' definition v.anyOfVariants with
    | .error e => .error e
    | .ok (anyOf, d1) =>
      .ok (TypeNode.mk { default := some v } [] [] none none [] anyOf [] [], d1)

/-- `reflectAllOf` (`reflect_types.go` lines 122–137): as `reflectOneOf`,
aggregating under `AllOf`. -/
def reflectAllOf (fuel : Nat) (definition : Definitions) (v : GoValue) : WalkRes :=
  match fuel with
  | 0 => .error .outOfFuel
  | fuel' + 1 =>
    match reflectVariants fuel' definition v.allOfVariants with
    | .error e => .error e
    | .ok (allOf, d1) =>
      .ok (TypeNode.mk { default := some v } [] [] none none [] [] allOf [], d1)

/-- The variant loop shared by the `oneOf`/`anyOf`/`allOf` handlers: walk
each variant (`reflect.TypeOf(variant)`, `reflect.ValueOf(variant)`,
`isRoot=false`) left to right, threading the registry. -/
def reflectVariants (fuel : Nat) (definition : Definitions)
    (variants : List (GoType × GoValue)) : Except WalkErr (List TypeNode × Definitions) :=
  match fuel with
  | 0 => .error .outOfFuel
  | fuel' + 1 =>
    match variants with
    | [] => .ok ([], definition)
    | (vt, vv) :: rest =>
      match reflectType fuel' definition vt vv false with
      | .error e => .error e
      | .ok (n, d1) =>
        match reflectVariants fuel' d1 rest with
        | .error e => .error e
        | .ok (ns, d2) => .ok (n :: ns, d2)

/-- `reflectSlice` (`reflect_types.go` lines 139–161): a fixed-length
array type sets `MinItems`/`MaxItems` to its length; the designated
byte-slice type (identity comparison with `typeByteSlice`) yields a string
node with `Media.BinaryEncoding = "base64"`; every other sequence yields
an array node whose `Items` is the walk of `reflect.New(v.Type().Elem())`
— a fresh pointer to a zero-valued element instance.  The slice's own
elements are never consulted. -/
def reflectSlice (fuel : Nat) (definition : Definitions) (v : GoValue) : WalkRes :=
  match fuel with
  | 0 => .error .outOfFuel
  | fuel' + 1 =>
    match v with
    | .vSlice ty elemZero _elems =>
      let returnType := newType ""
      let returnType :=
        if ty.isArray then
          returnType.withAttrs fun a =>
            { a with minItems := Int.ofNat ty.arrayLen, maxItems := Int.ofNat ty.arrayLen }
        else returnType
      if ty = .tByteSlice then
        .ok ((returnType.withAttrs fun a =>
               { a with typ := tTypeString }).withMedia
                 (some (typeMk { binaryEncoding := "base64" })),
             definition)
      else
        match reflectType fuel' definition (.tPtr ty.elemType)
                (.vPtr elemZero (some elemZero)) false with
        | .error e => .error e
        | .ok (items, d1) =>
          .ok ((returnType.withAttrs fun a => { a with typ := "array" }).withItems
                 (some items),
               d1)
    | _ => .error (.crash "reflect: Elem of invalid type")

/-- `reflectMap` (`reflect_types.go` lines 163–175): an object node whose
single `PatternProperties` entry under `".*"` is the walk of the map's
element type at `reflect.New(val)`; the dead `delete` of the
`"additionalProperties"` pattern key is kept. -/
def reflectMap (fuel : Nat) (definitions : Definitions) (v : GoValue) : WalkRes :=
  match fuel with
  | 0 => .error .outOfFuel
  | fuel' + 1 =>
    match v with
    | .vMap ty elemZero =>
      let val := ty.elemType
      match reflectType fuel' definitions val (.vPtr elemZero (some elemZero)) false with
      | .error e => .error e
      | .ok (child, d1) =>
        let rt := TypeNode.mk { typ := tTypeObject } [] [(".*", child)] none none [] [] [] []
        let rt := rt.withPatternProperties
          (rt.patternProperties.filter fun p => !(p.1 == "additionalProperties"))
        .ok (rt, d1)
    | _ => .error (.crash "reflect: Elem of invalid type")

end

/-- `getSliceValue` (from the sibling revision of `reflect_types.go`):
the first element of a non-empty sequence, otherwise a fresh pointer to a
zero-valued element instance.  No function in either revision calls it. -/
def getSliceValue (v : GoValue) : GoValue :=
  match v with
  | .vSlice _ _ (e :: _) => e
  | .vSlice _ elemZero [] => .vPtr elemZero (some elemZero)
  | x => x

/-- `reflect.Indirect(valueOf)` at the top of `Reflect`. -/
def indirectV : GoValue → GoValue
  | .vPtr _ (some u) => u
  | .vPtr _ none => .vInvalid
  | v => v

/-- The Schema document: the root node paired with the registry
accumulated during the walk. -/
structure Schema where
  typ : TypeNode
  definitions : Definitions

/-- `Reflect` (`reflect.go` lines 22–35): indirect the value, create a
fresh registry, walk the root with `isRoot=true`, stamp the version onto
the root node and package the document. -/
def Reflect (fuel : Nat) (t : GoType) (v : GoValue) : Except WalkErr Schema :=
  let valueOf := indirectV v
  match reflectType fuel [] t valueOf true with
  | .error e => .error e
  | .ok (root, definitions) =>
    .ok { typ := root.withAttrs fun a => { a with version := Version },
          definitions := definitions }

/-! ## Observation helpers for the statements -/

/-- Whether a walk returned a node at all. -/
def isOkW : WalkRes → Bool
  | .ok _ => true
  | .error _ => false

/-- The node of a successful walk. -/
def okNode : WalkRes → Option TypeNode
  | .ok (n, _) => some n
  | .error _ => none

/-- The registry of a successful walk. -/
def okDefs : WalkRes → Option Definitions
  | .ok (_, d) => some d
  | .error _ => none

/-- The registry of a successful top-level reflection. -/
def schemaDefs : Except WalkErr Schema → Option Definitions
  | .ok s => some s.definitions
  | .error _ => none

/-- The `Default` attribute of a node. -/
def defaultOf (n : TypeNode) : Option GoValue := n.attrs.default

/-- Look a property up by name. -/
def propOf (n : TypeNode) (k : String) : Option TypeNode := n.properties.lookup k

/-- The node `reflectPBEnum` produces: `oneOf` is exactly the string node
followed by the integer node, nothing else set. -/
def pbEnumNode : TypeNode :=
  TypeNode.mk {} [] [] none none
    [typeMk { typ := tTypeString }, typeMk { typ := tTypeInteger }] [] [] []

/-- A field descriptor that makes its member an exported, embedded
(anonymous) one whose value is not of struct kind — the situation the
composite walk cannot survive. -/
def badEmbedded (f : GoField) : Bool :=
  f.exported && f.anonymous && !f.val.isStructish

/-! ## Helper lemmas -/

/-- Replacing a node's properties leaves its scalar attributes alone. -/
theorem attrs_withProperties (n : TypeNode) (ps : List (String × TypeNode)) :
    (n.withProperties ps).attrs = n.attrs := by
  cases n; rfl

/-- Assigning one property leaves the scalar attributes alone. -/
theorem attrs_setProp (n : TypeNode) (k : String) (c : TypeNode) :
    (n.setProp k c).attrs = n.attrs := by
  cases n; rfl

/-- Splicing a property list leaves the scalar attributes alone. -/
theorem attrs_foldl_setProp (l : List (String × TypeNode)) (c : TypeNode) :
    (l.foldl (fun c p => c.setProp p.1 p.2) c).attrs = c.attrs := by
  induction l generalizing c with
  | nil => rfl
  | cons p rest ih => simp [List.foldl, ih, attrs_setProp]

/-- Looking up a key right after assigning it yields the assigned node. -/
theorem lookup_setAssoc (d : List (String × TypeNode)) (k : String) (v : TypeNode) :
    (setAssoc d k v).lookup k = some v := by
  induction d with
  | nil => simp [setAssoc, List.lookup]
  | cons p rest ih =>
    obtain ⟨k', v'⟩ := p
    by_cases h : k' = k
    · subst h
      simp [setAssoc, List.lookup]
    · have hb : (k' == k) = false := by simp [h]
      have hb2 : (k == k') = false := by simp [Ne.symm h]
      simp [setAssoc, hb, List.lookup, hb2, ih]

/-- Setting the `Items` child stores exactly that child. -/
theorem items_withItems (n : TypeNode) (i : Option TypeNode) :
    (n.withItems i).items = i := by
  cases n; rfl

/-- The field loop never changes the `Required` set it was given: no
branch of `reflectFields` writes `Required`. -/
theorem reflectFields_required (fuel : Nat) :
    ∀ (defs : Definitions) (cur : TypeNode) (fields : List GoField) (n : TypeNode)
      (d : Definitions), reflectFields fuel defs cur fields = .ok (n, d) →
      n.attrs.required = cur.attrs.required := by
  induction fuel with
  | zero =>
    intro defs cur fields n d h
    simp [reflectFields] at h
  | succ fuel ih =>
    intro defs cur fields n d h
    cases fields with
    | nil =>
      simp only [reflectFields] at h
      cases h
      rfl
    | cons f rest =>
      simp only [reflectFields] at h
      by_cases hexp : f.exported
      · simp only [hexp, Bool.not_true, Bool.false_eq_true, if_false] at h
        split at h
        · exact absurd h (by simp)
        · rename_i cur1 defs1 heq
          split at h
          · have h1 := ih _ _ _ _ _ h
            have h2 : cur1.attrs.required = cur.attrs.required := by
              split at heq
              · split at heq
                · exact absurd heq (by simp)
                · rename_i typ d1 _
                  cases heq
                  simp [attrs_foldl_setProp]
              · cases heq
                rfl
            rw [h1, h2]
          · split at h
            · exact absurd h (by simp)
            · rename_i fieldType defs2 _
              have h1 := ih _ _ _ _ _ h
              have h2 : cur1.attrs.required = cur.attrs.required := by
                split at heq
                · split at heq
                  · exact absurd heq (by simp)
                  · rename_i typ d1 _
                    cases heq
                    simp [attrs_foldl_setProp]
                · cases heq
                  rfl
              rw [h1, attrs_setProp, h2]
      · simp only [hexp] at h
        simp at h
        exact ih _ _ _ _ _ h

/-- Any node the composite walk returns has an empty `Required` set: the
walk starts from `newType` (empty `Required`) and never adds to it. -/
theorem reflectStruct_required (fuel : Nat) :
    ∀ (defs : Definitions) (v : GoValue) (n : TypeNode) (d : Definitions),
      reflectStruct fuel defs v = .ok (n, d) → n.attrs.required = [] := by
  induction fuel with
  | zero =>
    intro defs v n d h
    simp [reflectStruct] at h
  | succ fuel ih =>
    intro defs v n d h
    cases v with
    | vStruct name fields =>
      simp only [reflectStruct] at h
      have := reflectFields_required fuel _ _ _ _ _ h
      simpa [newType, typeMk] using this
    | vCap e o a al u =>
      simp only [reflectStruct] at h
      exact ih _ _ _ _ h
    | vInvalid => simp [reflectStruct] at h
    | vInt m => simp [reflectStruct] at h
    | vFloat m => simp [reflectStruct] at h
    | vBool b => simp [reflectStruct] at h
    | vString s => simp [reflectStruct] at h
    | vSlice ty ez es => simp [reflectStruct] at h
    | vMap ty ez => simp [reflectStruct] at h
    | vPtr pz dr => simp [reflectStruct] at h
    | vIface inn => simp [reflectStruct] at h
    | vChan => simp [reflectStruct] at h
    | vFunc => simp [reflectStruct] at h
    | vComplex => simp [reflectStruct] at h

/-- On a value that is not of struct kind, `reflectStruct` never returns a
node (`v.NumField()` panics). -/
theorem reflectStruct_nonstruct (fuel : Nat) :
    ∀ (defs : Definitions) (v : GoValue), v.isStructish = false →
      isOkW (reflectStruct fuel defs v) = false := by
  induction fuel with
  | zero => intro defs v hv; rfl
  | succ fuel ih =>
    intro defs v hv
    cases v with
    | vStruct name fields => simp [GoValue.isStructish] at hv
    | vCap e o a al u =>
      simp only [GoValue.isStructish] at hv
      simp only [reflectStruct]
      exact ih _ _ hv
    | vInvalid => rfl
    | vInt m => rfl
    | vFloat m => rfl
    | vBool b => rfl
    | vString s => rfl
    | vSlice ty ez es => rfl
    | vMap ty ez => rfl
    | vPtr pz dr => rfl
    | vIface inn => rfl
    | vChan => rfl
    | vFunc => rfl
    | vComplex => rfl

/-- If some field of the list is an exported anonymous member with a
non-struct value, the field loop never returns a node: reaching that field
recurses into `reflectStruct` on the non-struct value, which panics. -/
theorem reflectFields_bad (fuel : Nat) :
    ∀ (defs : Definitions) (cur : TypeNode) (fields : List GoField),
      fields.any badEmbedded = true →
      isOkW (reflectFields fuel defs cur fields) = false := by
  induction fuel with
  | zero => intro defs cur fields hbad; rfl
  | succ fuel ih =>
    intro defs cur fields hbad
    cases fields with
    | nil => simp at hbad
    | cons f rest =>
      simp only [List.any_cons, Bool.or_eq_true] at hbad
      simp only [reflectFields]
      by_cases hexp : f.exported
      · simp only [hexp, Bool.not_true, Bool.false_eq_true, if_false]
        by_cases hbf : badEmbedded f
        · have hanon : f.anonymous = true := by
            simp [badEmbedded] at hbf
            exact hbf.1.2
          have hns : f.val.isStructish = false := by
            simp [badEmbedded] at hbf
            exact hbf.2
          simp only [hanon, if_true]
          have hfail := reflectStruct_nonstruct fuel defs f.val hns
          cases hres : reflectStruct fuel defs f.val with
          | error e => simp [hres, isOkW]
          | ok p => simp [hres, isOkW] at hfail
        · have hrest : rest.any badEmbedded = true := by
            rcases hbad with hb | hb
            · exact absurd hb hbf
            · exact hb
          split
          · rfl
          · rename_i cur1 defs1 heq
            split
            · exact ih _ _ _ hrest
            · split
              · rfl
              · exact ih _ _ _ hrest
      · have hbf : badEmbedded f = false := by
          simp [badEmbedded]
          intro he
          exact absurd he hexp
        have hrest : rest.any badEmbedded = true := by
          rcases hbad with hb | hb
          · rw [hbf] at hb; cases hb
          · exact hb
        simp only [hexp]
        simp only [Bool.not_eq_true] at hexp
        simp [hexp]
        exact ih _ _ _ hrest

/-! ## Concrete inputs -/

/-- A struct field `x int` holding the given value. -/
def sField (n : Int) : GoField := .mk { name := "x" } false true .tInt (.vInt n)

/-- A value of the named struct type `S { x int }`. -/
def sVal (n : Int) : GoValue := .vStruct "S" [sField n]

/-- A `Parent` struct holding two `S` members with different field
values: the second nested encounter of the named type `S`. -/
def parentVal : GoValue := .vStruct "Parent"
  [ .mk { name := "a" } false true (.tStruct "S") (sVal 1),
    .mk { name := "b" } false true (.tStruct "S") (sVal 2) ]

/-- A registry that already holds an entry under `S`. -/
def c1pre : Definitions := [("S", newType "placeholder")]

/-- The walk of an `S` value against that pre-filled registry. -/
def c1res : WalkRes := reflectStruct 50 c1pre (sVal 3)

/-- The node that walk builds. -/
def c1node : TypeNode := (okNode c1res).getD (newType "")

/-- The registry that walk leaves. -/
def c1defs : Definitions := (okDefs c1res).getD []

/-- The spec's `Grandfather` scenario: a composite with one member whose
descriptor marks it required. -/
def grandfatherVal : GoValue := .vStruct "GrandfatherType"
  [.mk { name := "family_name", required := true } false true .tString (.vString "")]

/-- The enclosing composite with the `grand` member. -/
def parentGrandVal : GoValue := .vStruct "ParentType"
  [.mk { name := "grand" } false true (.tStruct "GrandfatherType") grandfatherVal]

/-- The node of the grandfather walk. -/
def c3node : TypeNode := (okNode (reflectStruct 50 [] grandfatherVal)).getD (newType "")

/-- The registry of the grandfather walk. -/
def c3defs : Definitions := (okDefs (reflectStruct 50 [] grandfatherVal)).getD []

/-- An integer-kind node as produced by the integer handler. -/
def intNodeC6 : TypeNode := typeMk { typ := tTypeInteger }

/-- A descriptor carrying numeric bounds and a string bound. -/
def numTagsC6 : tags :=
  { minimum := 18, maximum := 120, multipleOf := 3, exclusiveMinimum := true,
    maxLength := 7 }

/-- A type that implements all five capability interfaces at once. -/
def capAllT : GoType :=
  .tCap { pbEnum := true, oneOf := true, anyOf := true, allOf := true, enum := true } .tInt

/-- A type that implements only the enumerable capability. -/
def enumEmptyT : GoType := .tCap { enum := true } (.tStruct "E")

/-- A value of that type whose `Enum()` method returns an empty list. -/
def enumEmptyV : GoValue := .vCap [] [] [] [] (.vStruct "E" [])

/-- A struct embedding an exported anonymous member of string kind — the
`ColorPicker { String }` shape from the repository's own tests. -/
def colorPickerVal : GoValue := .vStruct "ColorPicker"
  [.mk {} true true .tString (.vString "")]

/-! ## Claims -/

/-- Claim C1, counterexample.  Walking `Parent { a S; b S }` with
`a.x = 1`, `b.x = 2` leaves the registry entry for `S` carrying the
default from the SECOND encounter (`2`), whereas the walk of the first
member alone stores default `1`: the second encounter of the named type
`S` re-walked the type and re-inserted (overwrote) the registry entry,
contradicting the claim that a name is inserted at most once and later
encounters return the existing ref without re-walking. -/
theorem C1_counterexample :
    (((schemaDefs (Reflect 100 (.tStruct "Parent") parentVal)).bind
        (fun d => d.lookup "S")).bind (fun n => propOf n "x")).bind defaultOf
      = some (.vInt 2)
  ∧ ((match reflectType 100 [] (.tStruct "S") (sVal 1) false with
      | .ok (_, d) => d.lookup "S"
      | .error _ => none).bind (fun n => propOf n "x")).bind defaultOf
      = some (.vInt 1) := ⟨rfl, rfl⟩

/-- Claim C1 (corrected): every non-root encounter of a named struct
re-walks the type and re-inserts the freshly built node under its
canonical name even when the Registry already holds an entry for that
name — `reflectType` performs no presence check; the encounter returns a
fresh ref node and the registry entry afterwards is the node of this
(latest) walk. -/
theorem C1_thm (fuel : Nat) (defs : Definitions) (name : String) (fields : List GoField)
    (n0 node : TypeNode) (d1 : Definitions)
    (_hpre : defs.lookup name = some n0)
    (hwalk : reflectStruct fuel defs (.vStruct name fields) = .ok (node, d1)) :
    reflectType (fuel + 1) defs (.tStruct name) (.vStruct name fields) false
      = .ok (newReference name, setAssoc d1 name node)
    ∧ (setAssoc d1 name node).lookup name = some node := by
  constructor
  · have hstep : reflectType (fuel + 1) defs (.tStruct name) (.vStruct name fields) false
        = (match reflectStruct fuel defs (.vStruct name fields) with
           | .error e => .error e
           | .ok (c, d) => .ok (newReference name, setAssoc d name c)) := rfl
    rw [hstep, hwalk]
  · exact lookup_setAssoc d1 name node

/-- Witness for C1: a concrete registry already holding `S`, and the
concrete re-walk, re-insertion and ref result. -/
theorem C1_witness :
    c1pre.lookup "S" = some (newType "placeholder")
  ∧ reflectStruct 50 c1pre (sVal 3) = .ok (c1node, c1defs)
  ∧ (reflectType 51 c1pre (.tStruct "S") (sVal 3) false
       = .ok (newReference "S", setAssoc c1defs "S" c1node)
     ∧ (setAssoc c1defs "S" c1node).lookup "S" = some c1node) :=
  ⟨rfl, rfl,
   C1_thm 50 c1pre "S" [sField 3] (newType "placeholder") c1node c1defs rfl rfl⟩

/-- Claim C2, counterexample.  Reflecting a channel value — a kind with no
dispatch case — does NOT fail: the whole call succeeds and returns the
permissive object schema, contradicting the claimed unsupported-type
error. -/
theorem C2_counterexample :
    Reflect 10 .tChan .vChan
      = .ok { typ := TypeNode.mk { typ := tTypeObject, additionalProperties := "true",
                                   version := Version } [] [] none none [] [] [] [],
              definitions := [] } := rfl

/-- Claim C2 (corrected): when the structural kind dispatch reaches no
matching case (channel, function, complex), the walker falls through to
the interface handler and returns the open object node (`kind = object`,
`additionalProperties = true`); no unsupported-type error exists and the
reflection call succeeds with that coerced schema. -/
theorem C2_thm (fuel : Nat) (defs : Definitions) (t : GoType) (v : GoValue) (root : Bool)
    (hkind : v = .vChan ∨ v = .vFunc ∨ v = .vComplex)
    (h1 : t ≠ .tTime) (h2 : t ≠ .tIP) (h3 : t ≠ .tURI)
    (c1 : t.implementsPBEnum = false) (c2 : t.implementsOneOf = false)
    (c3 : t.implementsAnyOf = false) (c4 : t.implementsAllOf = false)
    (c5 : t.implementsEnum = false) :
    reflectType (fuel + 1) defs t v root
      = .ok (typeMk { typ := tTypeObject, additionalProperties := "true" }, defs) := by
  rcases hkind with h | h | h <;> subst h <;>
    simp [reflectType, unwrapPtrIface, GoValue.kind, h1, h2, h3, c1, c2, c3, c4, c5,
          reflectInterface]

/-- Witness for C2: the channel case concretely. -/
theorem C2_witness :
    GoType.tChan ≠ .tTime
  ∧ reflectType 6 [] .tChan .vChan true
      = .ok (typeMk { typ := tTypeObject, additionalProperties := "true" }, []) :=
  ⟨by decide,
   C2_thm 5 [] .tChan .vChan true (Or.inl rfl) (by decide) (by decide) (by decide)
     rfl rfl rfl rfl rfl⟩

/-- Claim C3, counterexample.  The spec's own scenario: reflecting
`Parent { grand Grandfather }` where `family_name` is marked required
yields a registry entry for `GrandfatherType` whose `required` set is
EMPTY (the property itself is present and of string kind), contradicting
`required: ["family_name"]`. -/
theorem C3_counterexample :
    ((schemaDefs (Reflect 100 (.tStruct "ParentType") parentGrandVal)).bind
        (fun d => d.lookup "GrandfatherType")).map TypeNode.required = some []
  ∧ (((schemaDefs (Reflect 100 (.tStruct "ParentType") parentGrandVal)).bind
        (fun d => d.lookup "GrandfatherType")).bind
          (fun n => propOf n "family_name")).map TypeNode.typ = some tTypeString :=
  ⟨rfl, rfl⟩

/-- Claim C3 (corrected): the composite walk never writes the `required`
set — any node it returns has an empty `required` set, so members marked
required by their descriptor do NOT appear in it (and unmarked members do
not appear either, vacuously): the parsed `required` flag is dead. -/
theorem C3_thm (fuel : Nat) (defs : Definitions) (v : GoValue) (n : TypeNode)
    (d : Definitions) (hwalk : reflectStruct fuel defs v = .ok (n, d)) :
    n.required = [] :=
  reflectStruct_required fuel defs v n d hwalk

/-- Witness for C3: the grandfather walk concretely returns a node with an
empty required set. -/
theorem C3_witness :
    reflectStruct 50 [] grandfatherVal = .ok (c3node, c3defs)
  ∧ c3node.required = [] :=
  ⟨rfl, C3_thm 50 [] grandfatherVal c3node c3defs rfl⟩

/-- Claim C4 (confirmed): the sequence walk on a value of the designated
byte-slice type returns a string-kind node whose `Media` child carries
`binaryEncoding = base64`, with no `Items`, and its kind is never
`array`. -/
theorem C4_thm (fuel : Nat) (defs : Definitions) (elemZero : GoValue)
    (elems : List GoValue) :
    reflectSlice (fuel + 1) defs (.vSlice .tByteSlice elemZero elems)
      = .ok (TypeNode.mk { typ := tTypeString } [] [] none
               (some (typeMk { binaryEncoding := "base64" })) [] [] [] [], defs)
    ∧ (okNode (reflectSlice (fuel + 1) defs (.vSlice .tByteSlice elemZero elems))).map
        TypeNode.typ ≠ some tTypeArray := by
  constructor
  · rfl
  · have hred : (okNode (reflectSlice (fuel + 1) defs
        (.vSlice .tByteSlice elemZero elems))).map TypeNode.typ = some tTypeString := rfl
    rw [hred]
    decide

/-- Claim C5, counterexample.  Reflecting the non-empty slice `[]int{5}`:
the array node's `items` child carries default `0` — the walk of a fresh
zero-valued element — although walking the slice's first element (the
claimed representative) yields default `5`. -/
theorem C5_counterexample :
    ((okNode (reflectSlice 10 [] (.vSlice (.tSlice .tInt) (.vInt 0) [.vInt 5]))).bind
        TypeNode.items).bind defaultOf = some (.vInt 0)
  ∧ (okNode (reflectType 10 [] .tInt (.vInt 5) false)).bind defaultOf
      = some (.vInt 5) := ⟨rfl, rfl⟩

/-- Claim C5 (corrected): the sequence walk never consults the sequence's
elements — the result is identical to walking the empty sequence — and
for every non-byte sequence the `items` child is the walk of a fresh
pointer to a zero-valued element instance (`reflect.New` of the element
type); the first-element helper `getSliceValue` is never invoked. -/
theorem C5_thm (fuel : Nat) (defs : Definitions) (ty : GoType) (elemZero : GoValue)
    (elems : List GoValue) (hty : ty ≠ .tByteSlice) :
    reflectSlice (fuel + 1) defs (.vSlice ty elemZero elems)
      = reflectSlice (fuel + 1) defs (.vSlice ty elemZero [])
    ∧ (okNode (reflectSlice (fuel + 1) defs (.vSlice ty elemZero elems))).map
        TypeNode.items
      = (okNode (reflectType fuel defs (.tPtr ty.elemType)
            (.vPtr elemZero (some elemZero)) false)).map (fun n => some n) := by
  constructor
  · rfl
  · simp only [reflectSlice]
    rw [if_neg hty]
    cases hres : reflectType fuel defs (.tPtr ty.elemType)
        (.vPtr elemZero (some elemZero)) false with
    | error e => simp [okNode]
    | ok p =>
      obtain ⟨it, d1⟩ := p
      simp [okNode, items_withItems]

/-- Witness for C5: the `[]int{5}` instance. -/
theorem C5_witness :
    (GoType.tSlice .tInt ≠ .tByteSlice)
  ∧ (reflectSlice 10 [] (.vSlice (.tSlice .tInt) (.vInt 0) [.vInt 5])
       = reflectSlice 10 [] (.vSlice (.tSlice .tInt) (.vInt 0) [])
     ∧ (okNode (reflectSlice 10 [] (.vSlice (.tSlice .tInt) (.vInt 0) [.vInt 5]))).map
          TypeNode.items
       = (okNode (reflectType 9 [] (.tPtr .tInt) (.vPtr (.vInt 0) (some (.vInt 0)))
            false)).map (fun n => some n)) :=
  ⟨by decide, C5_thm 9 [] (.tSlice .tInt) (.vInt 0) [.vInt 5] (by decide)⟩

/-- Claim C6, counterexample.  Applying a descriptor carrying numeric
bounds (and a string bound) to an integer-kind node changes nothing: the
node keeps `minimum = 0` and `maxLength = 0`, contradicting the claim
that integer-kind nodes receive the numeric attributes. -/
theorem C6_counterexample :
    applyValidation intNodeC6 numTagsC6 = intNodeC6
  ∧ (applyValidation intNodeC6 numTagsC6).attrs.minimum = 0
  ∧ (applyValidation intNodeC6 numTagsC6).attrs.maxLength = 0 := ⟨rfl, rfl, rfl⟩

/-- Claim C6 (corrected): metadata application is per-kind — string-kind
nodes receive `minLength`/`maxLength` (and `format` when non-empty); ONLY
number-kind nodes receive the numeric attributes, while integer-kind
nodes receive nothing at all (the kind-mismatch no-op applies to them
too); array-kind nodes receive the array attributes; and any other kind
is left unchanged without error. -/
theorem C6_thm (n : TypeNode) (t : tags) :
    (n.typ = tTypeString → applyValidation n t
       = n.withAttrs (fun a =>
           { a with minLength := t.minLength, maxLength := t.maxLength,
                    format := if t.format ≠ "" then t.format else a.format }))
  ∧ (n.typ = tTypeNumber → applyValidation n t
       = n.withAttrs (fun a =>
           { a with multipleOf := t.multipleOf, minimum := t.minimum,
                    maximum := t.maximum, exclusiveMinimum := t.exclusiveMinimum,
                    exclusiveMaximum := t.exclusiveMaximum }))
  ∧ (n.typ = tTypeInteger → applyValidation n t = n)
  ∧ (n.typ = tTypeArray → applyValidation n t
       = n.withAttrs (fun a =>
           { a with minItems := t.minItems, maxItems := t.maxItems,
                    uniqueItems := t.uniqueItems }))
  ∧ (n.typ ≠ tTypeString → n.typ ≠ tTypeNumber → n.typ ≠ tTypeArray →
       applyValidation n t = n) := by
  refine ⟨fun h => ?_, fun h => ?_, fun h => ?_, fun h => ?_, fun h1 h2 h3 => ?_⟩
  · simp [applyValidation, h]
  · simp [applyValidation, h, tTypeNumber, tTypeString]
  · simp [applyValidation, h, tTypeInteger, tTypeString, tTypeNumber, tTypeArray]
  · simp [applyValidation, h, tTypeArray, tTypeString, tTypeNumber]
  · simp [applyValidation, h1, h2, h3]

/-- Witness for C6: the integer node with numeric tags, unchanged. -/
theorem C6_witness :
    intNodeC6.typ = tTypeInteger ∧ applyValidation intNodeC6 numTagsC6 = intNodeC6 :=
  ⟨rfl, (C6_thm intNodeC6 numTagsC6).2.2.1 rfl⟩

/-- Claim C7 (confirmed): away from the three well-known types, capability
dispatch follows the fixed order protobuf-enumerable, one-of, any-of,
all-of, enumerable, and only the first matching handler runs — whenever
the protobuf capability is present the result is exactly the node whose
`oneOf` is `[{kind: string}, {kind: integer}]` regardless of any other
capability, and each later handler runs only when all earlier
capabilities are absent. -/
theorem C7_thm (fuel : Nat) (defs : Definitions) (t : GoType) (v : GoValue) (root : Bool)
    (h1 : t ≠ .tTime) (h2 : t ≠ .tIP) (h3 : t ≠ .tURI) :
    (t.implementsPBEnum = true →
       reflectType (fuel + 1) defs t v root = .ok (pbEnumNode, defs))
  ∧ (t.implementsPBEnum = false → t.implementsOneOf = true →
       reflectType (fuel + 1) defs t v root = reflectOneOf fuel defs (unwrapPtrIface v))
  ∧ (t.implementsPBEnum = false → t.implementsOneOf = false →
       t.implementsAnyOf = true →
       reflectType (fuel + 1) defs t v root = reflectAnyOf fuel defs (unwrapPtrIface v))
  ∧ (t.implementsPBEnum = false → t.implementsOneOf = false →
       t.implementsAnyOf = false → t.implementsAllOf = true →
       reflectType (fuel + 1) defs t v root = reflectAllOf fuel defs (unwrapPtrIface v))
  ∧ (t.implementsPBEnum = false → t.implementsOneOf = false →
       t.implementsAnyOf = false → t.implementsAllOf = false →
       t.implementsEnum = true →
       reflectType (fuel + 1) defs t v root
         = reflectEnum fuel defs (unwrapPtrIface v)) := by
  refine ⟨fun hp => ?_, fun hp ho => ?_, fun hp ho ha => ?_, fun hp ho ha hl => ?_,
          fun hp ho ha hl he => ?_⟩ <;>
    simp [reflectType, h1, h2, h3, *, reflectPBEnum, pbEnumNode]

/-- Witness for C7: a type implementing all five capabilities is handled
by the protobuf handler — the earliest — and yields exactly the
string-or-integer `oneOf` node. -/
theorem C7_witness :
    capAllT ≠ .tTime
  ∧ capAllT.implementsPBEnum = true
  ∧ capAllT.implementsOneOf = true
  ∧ reflectType 8 [] capAllT (.vInt 0) false = .ok (pbEnumNode, []) :=
  ⟨by decide, rfl, rfl,
   (C7_thm 7 [] capAllT (.vInt 0) false (by decide) (by decide) (by decide)).1 rfl⟩

/-- Claim C8, counterexample.  Reflecting a nil `*string`: the walker
synthesizes the zero string for shape inference, and the resulting node
DOES carry that synthesized zero (`""`) as its `default` attribute,
contradicting the claim that the synthesized value is never emitted as
the default. -/
theorem C8_counterexample :
    (okNode (reflectType 10 [] (.tPtr .tString) (.vPtr (.vString "") none) false)).bind
        defaultOf = some (.vString "") := rfl

/-- Claim C8 (corrected): for an absent (nil) pointer member the walker
does synthesize a zero-valued instance of the pointee type and continues
with it to infer the node's shape — but the leaf handler then stores that
synthesized instance as the node's `default` attribute unconditionally
(shown here for a string pointee: the node is the string node with
`default` equal to the carried pointee zero value). -/
theorem C8_thm (fuel : Nat) (defs : Definitions) (s : String) (root : Bool) :
    reflectType (fuel + 1) defs (.tPtr .tString) (.vPtr (.vString s) none) root
      = .ok (typeMk { typ := tTypeString, default := some (.vString s) }, defs) := rfl

/-- Claim C9 (confirmed): the enumerable handler reads `variants[0]`
unconditionally, so when the value's enumerable capability yields an
empty variant list the walk never returns a node — at any fuel the result
is not `ok`, and with enough fuel it is precisely the
index-out-of-range panic. -/
theorem C9_thm (fuel : Nat) (defs : Definitions) (t : GoType) (v : GoValue) (root : Bool)
    (h1 : t ≠ .tTime) (h2 : t ≠ .tIP) (h3 : t ≠ .tURI)
    (c1 : t.implementsPBEnum = false) (c2 : t.implementsOneOf = false)
    (c3 : t.implementsAnyOf = false) (c4 : t.implementsAllOf = false)
    (he : t.implementsEnum = true)
    (hv : (unwrapPtrIface v).enumVariants = []) :
    isOkW (reflectType fuel defs t v root) = false
  ∧ reflectType (fuel + 2) defs t v root = .error (.crash "index out of range") := by
  constructor
  · match fuel with
    | 0 => rfl
    | fuel' + 1 =>
      simp [reflectType, h1, h2, h3, c1, c2, c3, c4, he]
      match fuel' with
      | 0 => simp [reflectEnum, isOkW]
      | m + 1 => simp [reflectEnum, hv, isOkW]
  · simp [reflectType, h1, h2, h3, c1, c2, c3, c4, he, reflectEnum, hv]

/-- Witness for C9: a concrete enumerable type whose variant list is
empty. -/
theorem C9_witness :
    (unwrapPtrIface enumEmptyV).enumVariants = []
  ∧ isOkW (reflectType 10 [] enumEmptyT enumEmptyV false) = false
  ∧ reflectType 12 [] enumEmptyT enumEmptyV false
      = .error (.crash "index out of range") :=
  ⟨rfl,
   (C9_thm 10 [] enumEmptyT enumEmptyV false (by decide) (by decide) (by decide)
      rfl rfl rfl rfl rfl rfl).1,
   (C9_thm 10 [] enumEmptyT enumEmptyV false (by decide) (by decide) (by decide)
      rfl rfl rfl rfl rfl rfl).2⟩

/-- Claim C10 (confirmed): the composite walk recurses into every
exported anonymous member with the struct-only field iteration, so a
composite value embedding an exported non-struct member (for example a
named string type) never yields a schema — `reflectStruct` fails at every
fuel. -/
theorem C10_thm (fuel : Nat) (defs : Definitions) (name : String)
    (fields : List GoField) (hbad : fields.any badEmbedded = true) :
    isOkW (reflectStruct fuel defs (.vStruct name fields)) = false := by
  cases fuel with
  | zero => rfl
  | succ fuel =>
    simp only [reflectStruct]
    exact reflectFields_bad fuel defs _ fields hbad

/-- Witness for C10: the repository's own `ColorPicker { String }`
shape. -/
theorem C10_witness :
    ([GoField.mk {} true true .tString (.vString "")].any badEmbedded = true)
  ∧ isOkW (reflectStruct 10 [] colorPickerVal) = false :=
  ⟨rfl, C10_thm 10 [] "ColorPicker" [.mk {} true true .tString (.vString "")] rfl⟩

end JsonschemaGo
